import Mathlib

/-!
Formal model of the strafen-project-backend core, shallowly embedded from the
TypeScript sources. Database values are modelled as a JSON-like inductive
type, the remote store as an association list from key paths to values, and
each callable operation as a pure function on an explicit world consisting of
the store and the append-only list of statistics events.

Definitions embedded from files present in the repository snapshot
(`ChangeFineFunction.ts`, the `PseudoRandom` class) follow the source line by
line. Components whose implementation files are not part of the snapshot
(the `guid` parser, `ParameterContainer`, `PayedState`, the
`ChangeFinePayedFunction` and `NewClubFunction` operations, datetime
serialization) are modelled from the specification and the repository's test
suite; each of those definitions carries a doc comment starting
`Modelled from the spec:`.
-/

/-- A JSON-like database value: the data exchanged with the remote store. -/
inductive JsValue where
  | null
  | str (s : String)
  | num (q : ℚ)
  | bool (b : Bool)
  | obj (fields : List (String × JsValue))

/-- Field lookup in an object value; `none` for non-objects or missing keys
(the JavaScript `undefined`). -/
def objLookup (v : JsValue) (key : String) : Option JsValue :=
  match v with
  | .obj fields => (fields.find? (fun e => e.1 == key)).map Prod.snd
  | _ => none

/-- The remote store: an association list from full key paths to values,
modelling the Firebase realtime database as the key-path get/set/remove
primitive the spec treats it as. -/
abbrev Store := List (String × JsValue)

/-- Read the value at a key path (`ref.once("value")` / `snapshot.val()`). -/
def dbGet (store : Store) (path : String) : Option JsValue :=
  (store.find? (fun e => e.1 == path)).map Prod.snd

/-- Overwrite the value at a key path (`ref.set(value)`). -/
def dbSet (store : Store) (path : String) (v : JsValue) : Store :=
  (path, v) :: store.filter (fun e => ¬ e.1 == path)

/-- Remove the record at a key path (`ref.remove()`). -/
def dbRemove (store : Store) (path : String) : Store :=
  store.filter (fun e => ¬ e.1 == path)

/-- `existsData(ref)`: whether the key path currently holds a value. -/
def existsData (store : Store) (path : String) : Bool :=
  (dbGet store path).isSome

/-- One statistics event as appended by `saveStatistic(clubPath, {name,
properties})`: the club path it is scoped by, the operation name, and the
properties object. -/
structure StatisticsEvent where
  clubPath : String
  name : String
  properties : JsValue

/-- The world an operation acts on: the store plus the append-only
statistics list. -/
structure World where
  store : Store
  statistics : List StatisticsEvent

/-- `undefinedAsNull` from `utils.ts`: an absent value becomes JSON `null`. -/
def undefinedAsNull (v : Option JsValue) : JsValue :=
  v.getD .null

/-- A fine as parsed by the function layer. Modelled from the spec: `Fine.ts`
is not part of the snapshot; following `Person.ts` (which is), the
serialized `object` is the serialized fields preceded by the id, and
`objectWithoutId` is the serialized fields alone. -/
structure Fine where
  id : String
  dataWithoutId : List (String × JsValue)

/-- `fine.objectWithoutId`: the value written at the fine's key path. -/
def Fine.objectWithoutId (f : Fine) : JsValue :=
  .obj f.dataWithoutId

/-- `fine.object`: the serialized fine including its id. -/
def Fine.object (f : Fine) : JsValue :=
  .obj (("id", .str f.id) :: f.dataWithoutId)

/-- `ChangeType`: the two change kinds `ChangeFineFunction` switches on. -/
inductive ChangeType where
  | update
  | delete

/-- The parsed parameters of `ChangeFineFunction` (club level reduced to the
club path component it yields, guids to their strings). -/
structure ChangeFineParameters where
  clubComponent : String
  clubId : String
  changeType : ChangeType
  fine : Fine

/-- `clubPath` as built in `ChangeFineFunction.executeFunction`. -/
def ChangeFineParameters.clubPath (p : ChangeFineParameters) : String :=
  p.clubComponent ++ "/" ++ p.clubId

/-- `finePath` as built in `ChangeFineFunction.getFineRef`. -/
def ChangeFineParameters.finePath (p : ChangeFineParameters) : String :=
  p.clubPath ++ "/fines/" ++ p.fine.id

/-- `ChangeFineFunction.deleteItem`: remove the record when it exists,
otherwise do nothing. Embedded from `ChangeFineFunction.ts` lines 117-125. -/
def changeFineDeleteItem (store : Store) (p : ChangeFineParameters) : Store :=
  if existsData store p.finePath then dbRemove store p.finePath else store

/-- `ChangeFineFunction.updateItem`: unconditionally overwrite the fine's key
path with `fine.objectWithoutId`. Embedded from `ChangeFineFunction.ts`
lines 127-133. -/
def changeFineUpdateItem (store : Store) (p : ChangeFineParameters) : Store :=
  dbSet store p.finePath p.fine.objectWithoutId

/-- `ChangeFineFunction.executeFunction` after prerequisites: read the
previous fine, apply the change, then save one statistics event. The
previous fine read back from the store is modelled as the stored object
itself (`Fine.fromObject` composed with `.object` is not in the snapshot and
is taken as the identity on stored objects). Embedded from
`ChangeFineFunction.ts` lines 80-115. -/
def changeFineExecute (p : ChangeFineParameters) (w : World) : World :=
  let previousFine := dbGet w.store p.finePath
  let store' :=
    match p.changeType with
    | .delete => changeFineDeleteItem w.store p
    | .update => changeFineUpdateItem w.store p
  let changedFine : JsValue :=
    match p.changeType with
    | .delete => .obj [("id", .str p.fine.id)]
    | .update => p.fine.object
  { store := store'
    statistics := w.statistics ++
      [{ clubPath := p.clubPath
         name := "changeFine"
         properties := .obj
           [("previousFine", undefinedAsNull previousFine),
            ("changedFine", changedFine)] }] }

/-- Concrete fixture: an update of the test fine carrying the newer
timestamp `2011-10-15` inside its serialized data. -/
def fineStampedT2 : Fine :=
  { id := "637D6187-68D2-4000-9CB8-7DFC3877D5BA"
    dataWithoutId :=
      [("payedState", .obj [("state", .str "payed")]),
       ("updateProperties", .obj
         [("timestamp", .str "2011-10-15T10:42:38.000Z"),
          ("personId", .str "7BB9AB2B-8516-4847-8B5F-1A94B78EC7B7")])] }

/-- Concrete fixture: an update of the same fine carrying the older
timestamp `2011-10-14`. -/
def fineStampedT1 : Fine :=
  { id := "637D6187-68D2-4000-9CB8-7DFC3877D5BA"
    dataWithoutId :=
      [("payedState", .obj [("state", .str "unpayed")]),
       ("updateProperties", .obj
         [("timestamp", .str "2011-10-14T10:42:38.000Z"),
          ("personId", .str "7BB9AB2B-8516-4847-8B5F-1A94B78EC7B7")])] }

/-- Concrete fixture: `changeFine` update parameters for a given fine in the
test club. -/
def changeFineParamsFor (ct : ChangeType) (f : Fine) : ChangeFineParameters :=
  { clubComponent := "testableClubs"
    clubId := "1992AF26-8B42-4452-A564-7E376B6401DB"
    changeType := ct
    fine := f }

/-- The 22 characters accepted as hexadecimal digits of an identifier:
`0`-`9`, `a`-`f` and `A`-`F`. -/
def hexDigits : List Char :=
  (List.range 10).map (fun n => Char.ofNat (48 + n)) ++
    (List.range 6).map (fun n => Char.ofNat (97 + n)) ++
    (List.range 6).map (fun n => Char.ofNat (65 + n))

/-- Whether a character is a (case-insensitive) hexadecimal digit. -/
def isHexChar (c : Char) : Bool :=
  hexDigits.contains c

/-- Numeric value of a hexadecimal digit character. -/
def hexVal (c : Char) : ℕ :=
  if c ≤ '9' then c.toNat - 48 else if 'a' ≤ c then c.toNat - 87 else c.toNat - 55

/-- Uppercase hexadecimal digit character of a nibble value. -/
def hexChar (n : ℕ) : Char :=
  if n < 10 then Char.ofNat (48 + n) else Char.ofNat (55 + n)

/-- ASCII uppercasing of one character. -/
def charUpper (c : Char) : Char :=
  if 'a' ≤ c ∧ c ≤ 'z' then Char.ofNat (c.toNat - 32) else c

/-- The canonical (uppercase) form of an identifier string. -/
def canonicalize (s : String) : String :=
  ⟨s.data.map charUpper⟩

/-- The 8-4-4-4-12 hyphen grouping of the canonical identifier form. -/
def guidGroupLengths : List ℕ := [8, 4, 4, 4, 12]

/-- Whether a character list matches the grouped-hex identifier pattern:
five hyphen-separated groups of lengths 8-4-4-4-12, hexadecimal digits of
either case. -/
def guidFormatValid (cs : List Char) : Bool :=
  ((cs.splitOn '-').map List.length == guidGroupLengths) &&
    (cs.splitOn '-').all (fun p => p.all isHexChar)

/-- Modelled from the spec: `guid.ts` is not part of the snapshot. An
identifier's underlying 128-bit value, kept as the five groups of nibble
values so equality is by value, not by string case. -/
structure guid where
  nibbleGroups : List (List ℕ)
deriving DecidableEq

/-- The identifier parse failure of the spec's IdentifierService. -/
inductive GuidError where
  | invalidFormat
deriving DecidableEq

/-- Modelled from the spec: parse a character list into nibble groups when it
matches the grouped-hex pattern. -/
def guidParseChars (cs : List Char) : Option (List (List ℕ)) :=
  if guidFormatValid cs then some ((cs.splitOn '-').map (List.map hexVal))
  else none

/-- Modelled from the spec: `guid.fromString` parses a grouped-hex string,
case-insensitively, and fails with `InvalidFormat` otherwise. -/
def guid.fromString (s : String) : Except GuidError guid :=
  match guidParseChars s.data with
  | some gs => .ok ⟨gs⟩
  | none => .error .invalidFormat

/-- Modelled from the spec: `guid.guidString` formats the identifier in its
canonical uppercase hyphenated form. -/
def guid.guidString (g : guid) : String :=
  ⟨['-'].intercalate (g.nibbleGroups.map (List.map hexChar))⟩

/-- Concrete fixture: the test club id `1992af26-8b42-4452-a564-7e376b6401db`
as an identifier value. -/
def guidFixture : guid :=
  ⟨[[1, 9, 9, 2, 10, 15, 2, 6], [8, 11, 4, 2], [4, 4, 5, 2], [10, 5, 6, 4],
    [7, 14, 3, 7, 6, 11, 6, 4, 0, 1, 13, 11]]⟩

/-- Days from 1970-01-01 of a proleptic-Gregorian civil date, the standard
era-based computation with floor division. -/
def daysFromCivil (y m d : ℤ) : ℤ :=
  let y2 := if m ≤ 2 then y - 1 else y
  let m2 := if m ≤ 2 then m + 12 else m
  365 * y2 + y2 / 4 - y2 / 100 + y2 / 400 + (153 * (m2 - 3) + 2) / 5 + d - 1 - 719468

/-- Civil date (year, month, day) of a day count from 1970-01-01, the
standard inverse of `daysFromCivil`. -/
def civilFromDays (z : ℤ) : ℤ × ℤ × ℤ :=
  let z2 := z + 719468
  let era := z2 / 146097
  let doe := z2 - era * 146097
  let yoe := (doe - doe / 1460 + doe / 36524 - doe / 146096) / 365
  let doy := doe - (365 * yoe + yoe / 4 - yoe / 100)
  let mp := (5 * doy + 2) / 153
  let d := doy - (153 * mp + 2) / 5 + 1
  let m := if mp < 10 then mp + 3 else mp - 9
  (if m ≤ 2 then yoe + era * 400 + 1 else yoe + era * 400, m, d)

/-- Decimal digit character. -/
def digitChar (n : ℕ) : Char :=
  Char.ofNat (48 + n)

/-- Whether a character is a decimal digit. -/
def isDigitChar (c : Char) : Bool :=
  '0' ≤ c && c ≤ '9'

/-- Numeric value of a decimal digit character. -/
def digitVal (c : Char) : ℕ :=
  c.toNat - 48

/-- Two decimal digits, least significant last. -/
def pad2 (n : ℕ) : List Char :=
  [digitChar (n / 10 % 10), digitChar (n % 10)]

/-- Three decimal digits. -/
def pad3 (n : ℕ) : List Char :=
  [digitChar (n / 100 % 10), digitChar (n / 10 % 10), digitChar (n % 10)]

/-- Four decimal digits. -/
def pad4 (n : ℕ) : List Char :=
  [digitChar (n / 1000 % 10), digitChar (n / 100 % 10), digitChar (n / 10 % 10),
   digitChar (n % 10)]

/-- Modelled from the spec: `Date.toISOString()` as used for every persisted
datetime — the instant (epoch milliseconds) rendered as an ISO-8601 string
with millisecond precision and a `Z` suffix. -/
def isoFormat (t : ℤ) : String :=
  let days := t / 86400000
  let msInDay := (t % 86400000).toNat
  let ymd := civilFromDays days
  ⟨pad4 ymd.1.toNat ++ ['-'] ++ pad2 ymd.2.1.toNat ++ ['-'] ++ pad2 ymd.2.2.toNat ++
    ['T'] ++ pad2 (msInDay / 3600000) ++ [':'] ++ pad2 (msInDay / 60000 % 60) ++
    [':'] ++ pad2 (msInDay / 1000 % 60) ++ ['.'] ++ pad3 (msInDay % 1000) ++ ['Z']⟩

/-- Parse a trailing timezone offset: `Z`, `±HHMM` or `±HH:MM`, as minutes
east of UTC. -/
def parseOffsetChars : List Char → Option ℤ
  | ['Z'] => some 0
  | [sg, a, b, c, d] =>
    if (sg = '+' ∨ sg = '-') ∧ isDigitChar a = true ∧ isDigitChar b = true ∧
        isDigitChar c = true ∧ isDigitChar d = true then
      let mins : ℤ := (10 * digitVal a + digitVal b) * 60 + (10 * digitVal c + digitVal d)
      some (if sg = '+' then mins else -mins)
    else none
  | [sg, a, b, ':', c, d] =>
    if (sg = '+' ∨ sg = '-') ∧ isDigitChar a = true ∧ isDigitChar b = true ∧
        isDigitChar c = true ∧ isDigitChar d = true then
      let mins : ℤ := (10 * digitVal a + digitVal b) * 60 + (10 * digitVal c + digitVal d)
      some (if sg = '+' then mins else -mins)
    else none
  | _ => none

/-- Parse an optional `.mmm` fraction followed by the offset: milliseconds
and offset minutes. -/
def parseFracOffset : List Char → Option (ℕ × ℤ)
  | '.' :: f1 :: f2 :: f3 :: rest =>
    if isDigitChar f1 = true ∧ isDigitChar f2 = true ∧ isDigitChar f3 = true then
      (parseOffsetChars rest).map
        (fun off => (100 * digitVal f1 + 10 * digitVal f2 + digitVal f3, off))
    else none
  | rest => (parseOffsetChars rest).map (fun off => (0, off))

/-- Modelled from the spec: parsing of an ISO-8601 datetime in any offset
form (`YYYY-MM-DDTHH:MM:SS`, optional `.mmm`, then `Z`, `±HHMM` or
`±HH:MM`) into epoch milliseconds. Digit-shape validation only; calendar
range checks of the underlying `Date` parser are not modelled. -/
def isoParseChars : List Char → Option ℤ
  | y1 :: y2 :: y3 :: y4 :: '-' :: m1 :: m2 :: '-' :: d1 :: d2 :: 'T' ::
      h1 :: h2 :: ':' :: n1 :: n2 :: ':' :: s1 :: s2 :: rest =>
    if isDigitChar y1 = true ∧ isDigitChar y2 = true ∧ isDigitChar y3 = true ∧
        isDigitChar y4 = true ∧ isDigitChar m1 = true ∧ isDigitChar m2 = true ∧
        isDigitChar d1 = true ∧ isDigitChar d2 = true ∧ isDigitChar h1 = true ∧
        isDigitChar h2 = true ∧ isDigitChar n1 = true ∧ isDigitChar n2 = true ∧
        isDigitChar s1 = true ∧ isDigitChar s2 = true then
      match parseFracOffset rest with
      | some (ms, off) =>
        let y : ℤ := (1000 * digitVal y1 + 100 * digitVal y2 + 10 * digitVal y3 +
          digitVal y4 : ℕ)
        let mo : ℤ := (10 * digitVal m1 + digitVal m2 : ℕ)
        let dd : ℤ := (10 * digitVal d1 + digitVal d2 : ℕ)
        let hh : ℤ := (10 * digitVal h1 + digitVal h2 : ℕ)
        let nn : ℤ := (10 * digitVal n1 + digitVal n2 : ℕ)
        let ss : ℤ := (10 * digitVal s1 + digitVal s2 : ℕ)
        some (86400000 * daysFromCivil y mo dd + 3600000 * hh + 60000 * nn +
          1000 * ss + (ms : ℤ) - 60000 * off)
      | none => none
    else none
  | _ => none

/-- Parse an ISO-8601 offset-form datetime string to epoch milliseconds. -/
def isoParse (s : String) : Option ℤ :=
  isoParseChars s.data

/-- Whether a string has the normalized datetime-at-rest shape
`YYYY-MM-DDTHH:MM:SS.mmmZ`: 24 characters, digits and fixed separators,
millisecond precision, `Z` suffix. -/
def isNormalizedIso (s : String) : Bool :=
  match s.data with
  | [a1, a2, a3, a4, b1, a5, a6, b2, a7, a8, b3, a9, a10, b4, a11, a12, b5,
      a13, a14, b6, a15, a16, a17, b7] =>
    [a1, a2, a3, a4, a5, a6, a7, a8, a9, a10, a11, a12, a13, a14, a15, a16,
      a17].all isDigitChar &&
      (b1 == '-') && (b2 == '-') && (b3 == 'T') && (b4 == ':') && (b5 == ':') &&
      (b6 == '.') && (b7 == 'Z')
  | _ => false

/-- An error as surfaced to callers: a code of the fixed taxonomy and a
message. -/
structure HttpsError where
  code : String
  message : String
deriving DecidableEq

/-- JavaScript `typeof` of a database value (`typeof null` is `"object"`). -/
def typeofString : JsValue → String
  | .null => "object"
  | .str _ => "string"
  | .num _ => "number"
  | .bool _ => "boolean"
  | .obj _ => "object"

/-- Modelled from the spec: `ParameterContainer.getParameter` — look up a
field of the untyped request payload and check its expected type. An
absent, undefined or null field fails with the exact missing-field
template; only that template is pinned by the spec and tests, so the
present-but-wrong-type message carries the expected/actual types without
rendering the value itself. Parsing is pure: it takes only the in-memory
payload, never the store. -/
def getParameter (data : JsValue) (name expected : String) :
    Except HttpsError JsValue :=
  match objLookup data name with
  | none =>
    .error ⟨"invalid-argument",
      "Couldn't parse '" ++ name ++ "'. Expected type '" ++ expected ++
        "', but got undefined or null."⟩
  | some .null =>
    .error ⟨"invalid-argument",
      "Couldn't parse '" ++ name ++ "'. Expected type '" ++ expected ++
        "', but got undefined or null."⟩
  | some v =>
    if typeofString v = expected then .ok v
    else
      .error ⟨"invalid-argument",
        "Couldn't parse '" ++ name ++ "'. Expected type '" ++ expected ++
          "', but got a value of type '" ++ typeofString v ++ "'."⟩

/-- A string parameter: `getParameter` with expected type `string`, with the
string payload extracted. -/
def getStringParameter (data : JsValue) (name : String) :
    Except HttpsError String :=
  match getParameter data name "string" with
  | .ok (.str s) => .ok s
  | .ok _ =>
    .error ⟨"invalid-argument",
      "Couldn't parse '" ++ name ++ "'. Expected type 'string', but got a value of type 'string'."⟩
  | .error e => .error e

/-- The three accepted payed-state values. -/
def payedStateValues : List String := ["payed", "settled", "unpayed"]

/-- Modelled from the spec: `PayedState.fromObject` — parse a payed-state
payload. `unpayed`/`settled` need no further fields; `payed` requires an
ISO datetime `payDate` (normalized on output) and a boolean `inApp`. A
`state` outside the three accepted values is rejected with the enum
template naming all three. -/
def payedStateFromObject (v : JsValue) : Except HttpsError JsValue :=
  match objLookup v "state" with
  | some (.str s) =>
    if s = "payed" then
      match objLookup v "payDate" with
      | some (.str ds) =>
        match isoParse ds with
        | some t =>
          match objLookup v "inApp" with
          | some (.bool b) =>
            .ok (.obj [("state", .str "payed"), ("payDate", .str (isoFormat t)),
              ("inApp", .bool b)])
          | _ =>
            .error ⟨"invalid-argument",
              "Couldn't parse PayedState parameter 'inApp'. Expected type 'boolean', but got 'undefined' from type 'undefined'."⟩
        | none =>
          .error ⟨"invalid-argument",
            "Couldn't parse PayedState parameter 'payDate', expected iso string, but got '" ++
              ds ++ "' from type string"⟩
      | _ =>
        .error ⟨"invalid-argument",
          "Couldn't parse PayedState parameter 'payDate', expected iso string, but got 'undefined' from type undefined"⟩
    else if s = "settled" then
      .ok (.obj [("state", .str "settled"), ("payDate", .null), ("inApp", .null)])
    else if s = "unpayed" then
      .ok (.obj [("state", .str "unpayed"), ("payDate", .null), ("inApp", .null)])
    else
      .error ⟨"invalid-argument",
        "Couldn't parse PayedState parameter 'state'. Expected values 'payed', 'settled' or 'unpayed', but got '" ++
          s ++ "' from type '" ++ typeofString (.str s) ++ "'."⟩
  | _ =>
    .error ⟨"invalid-argument",
      "Couldn't parse PayedState parameter 'state'. Expected values 'payed', 'settled' or 'unpayed', but got undefined or null."⟩

/-- Replace (or add) one field of an object value; non-objects unchanged. -/
def setObjField (v : JsValue) (key : String) (x : JsValue) : JsValue :=
  match v with
  | .obj fields => .obj ((key, x) :: fields.filter (fun e => ¬ e.1 == key))
  | other => other

/-- Whether a stored value is a deletion tombstone (`{ deleted: true, ... }`). -/
def isDeletedValue (v : JsValue) : Bool :=
  match objLookup v "deleted" with
  | some (.bool true) => true
  | _ => false

/-- The parsed parameters of a `changeFinePayed` call (guids as canonical
strings, payed state already parsed and normalized). -/
structure ChangeFinePayedCall where
  clubId : String
  fineId : String
  payedState : JsValue
  updateProperties : JsValue

/-- The fine's key path in the testing club component. -/
def ChangeFinePayedCall.finePath (p : ChangeFinePayedCall) : String :=
  "testableClubs/" ++ p.clubId ++ "/fines/" ++ p.fineId

/-- Modelled from the spec: `ChangeFinePayedFunction.executeFunction` — read
the target fine; an absent or tombstoned fine fails with `unavailable` and
the exact message "Couldn't get fine from 'Deleted'.", leaving the store
(the tombstone included) and the statistics untouched; otherwise the payed
state is overwritten and one statistics event appended. -/
def changeFinePayedExecute (p : ChangeFinePayedCall) (w : World) :
    Except HttpsError Unit × World :=
  match dbGet w.store p.finePath with
  | none => (.error ⟨"unavailable", "Couldn't get fine from 'Deleted'."⟩, w)
  | some v =>
    if isDeletedValue v then
      (.error ⟨"unavailable", "Couldn't get fine from 'Deleted'."⟩, w)
    else
      let updated := setObjField (setObjField v "payedState" p.payedState)
        "updateProperties" p.updateProperties
      (.ok (),
        { store := dbSet w.store p.finePath updated
          statistics := w.statistics ++
            [{ clubPath := "testableClubs/" ++ p.clubId
               name := "changeFinePayed"
               properties := .obj
                 [("previousFine", v), ("changedState", p.payedState)] }] })

/-- Modelled from the spec: `ChangeFinePayedFunction.parseParameters` — the
typed parameters parsed from the untyped payload, in the order the tests
exhibit (private key, club id, fine id, payed state, update properties),
before any storage access. -/
def changeFinePayedParse (data : JsValue) :
    Except HttpsError ChangeFinePayedCall := do
  let _pk ← getStringParameter data "privateKey"
  let clubIdStr ← getStringParameter data "clubId"
  let clubId ← match guid.fromString clubIdStr with
    | .ok g => pure g.guidString
    | .error _ =>
      .error ⟨"invalid-argument",
        "Couldn't parse '" ++ clubIdStr ++ "' to guid."⟩
  let fineIdStr ← getStringParameter data "fineId"
  let fineId ← match guid.fromString fineIdStr with
    | .ok g => pure g.guidString
    | .error _ =>
      .error ⟨"invalid-argument",
        "Couldn't parse '" ++ fineIdStr ++ "' to guid."⟩
  let psRaw ← getParameter data "payedState" "object"
  let ps ← payedStateFromObject psRaw
  let up ← getParameter data "fineUpdateProperties" "object"
  pure ⟨clubId, fineId, ps, up⟩

/-- A full `changeFinePayed` invocation: parse, then execute; a parse
failure reaches no storage operation and leaves the world unchanged. -/
def changeFinePayedRun (data : JsValue) (w : World) :
    Except HttpsError Unit × World :=
  match changeFinePayedParse data with
  | .error e => (.error e, w)
  | .ok p => changeFinePayedExecute p w

/-- The parsed parameters of a `newClub` call. -/
structure NewClubCall where
  clubId : String
  identifier : String
  clubObject : JsValue

/-- The club's key path in the testing club component. -/
def newClubPath (p : NewClubCall) : String :=
  "testableClubs/" ++ p.clubId

/-- Whether any stored club already uses a club identifier. -/
def identifierExists (store : Store) (idf : String) : Bool :=
  store.any (fun e =>
    match objLookup e.2 "identifier" with
    | some (.str s) => s == idf
    | _ => false)

/-- Modelled from the spec: `NewClubFunction.executeFunction` — its same-id
behaviour is pinned by the repository's `newClub.test.ts` ('Same id'): a
club id already in the store returns success and changes nothing;
otherwise a clashing club identifier fails with `already-exists`, and a
fresh club is written. -/
def newClubExecute (p : NewClubCall) (w : World) :
    Except HttpsError Unit × World :=
  match dbGet w.store (newClubPath p) with
  | some _ => (.ok (), w)
  | none =>
    if identifierExists w.store p.identifier then
      (.error ⟨"already-exists", "Club identifier already exists"⟩, w)
    else
      (.ok (),
        { store := dbSet w.store (newClubPath p) p.clubObject
          statistics := w.statistics })

/-- Concrete fixture: a deletion tombstone as the tests serialize it. -/
def tombstoneFixture : JsValue :=
  .obj [("deleted", .bool true),
    ("updateProperties", .obj
      [("timestamp", .str "2011-10-15T10:42:38.000Z"),
       ("personId", .str "7BB9AB2B-8516-4847-8B5F-1A94B78EC7B7")])]

/-- Concrete fixture: a `changeFinePayed` call against the deleted test
fine. -/
def changeFinePayedCallFixture : ChangeFinePayedCall :=
  { clubId := "1992AF26-8B42-4452-A564-7E376B6401DB"
    fineId := "137D6187-68D2-4000-9CB8-7DFC3877D5BA"
    payedState := .obj
      [("state", .str "settled"), ("payDate", .null), ("inApp", .null)]
    updateProperties := .obj
      [("timestamp", .str "2011-10-15T10:42:39.000Z"),
       ("personId", .str "7BB9AB2B-8516-4847-8B5F-1A94B78EC7B7")] }

/-- Concrete fixture: a world whose only record is the tombstoned fine. -/
def tombstoneWorld : World :=
  ⟨[(changeFinePayedCallFixture.finePath, tombstoneFixture)], []⟩

/-- Concrete fixture: a payload carrying a private key but no `clubId`. -/
def missingClubIdPayload : JsValue :=
  .obj [("privateKey", .str "some private key"),
    ("fineId", .str "137D6187-68D2-4000-9CB8-7DFC3877D5BA")]

/-- Concrete fixture: the stored club record of the `newClub` 'Same id'
test. -/
def clubObjectFixture : JsValue :=
  .obj [("identifier", .str "identifier1"),
    ("inAppPaymentActive", .bool false),
    ("name", .str "test club of new club test"),
    ("regionCode", .str "DE"),
    ("personUserIds", .obj
      [("userId", .str "7BB9AB2B-8516-4847-8B5F-1A94B78EC7B7")])]

/-- Concrete fixture: a second `newClub` call reusing the stored club's id
with different properties. -/
def newClubCallFixture : NewClubCall :=
  { clubId := "DD129FCD-3B4B-437C-83A7-0E5433CC4CAC"
    identifier := "identifier2"
    clubObject := .obj [("identifier", .str "identifier2"),
      ("inAppPaymentActive", .bool true),
      ("name", .str "test clubasdf of new club test"),
      ("regionCode", .str "DE")] }

/-- Concrete fixture: a world already holding the club record. -/
def newClubWorldFixture : World :=
  ⟨[(newClubPath newClubCallFixture, clubObjectFixture)], []⟩

/-- Truncation toward zero of an exact numeric value, as JavaScript's
integer conversions start with. -/
def jsTrunc (q : ℚ) : ℤ :=
  if 0 ≤ q then ⌊q⌋ else -⌊-q⌋

/-- JavaScript `x >>> 0` (ToUint32) on an exact numeric value. -/
def jsToUint32 (q : ℚ) : ℕ :=
  (jsTrunc q % 4294967296).toNat

/-- JavaScript `x | 0` (ToInt32) on an exact numeric value. -/
def jsToInt32 (q : ℚ) : ℤ :=
  let m := jsTrunc q % 4294967296
  if m < 2147483648 then m else m - 4294967296

/-- One character step of `PseudoRandom.mash` (source lines 31-43), the
64-bit floating-point arithmetic idealized as exact rational arithmetic;
the verified properties — seed determinism and the output range — are
insensitive to rounding. -/
def mashStep (n : ℚ) (code : ℕ) : ℚ :=
  let n1 := n + code
  let h1 := (0.02519603282416938 : ℚ) * n1
  let n2 := jsToUint32 h1
  let h2 := h1 - n2
  let h3 := h2 * n2
  let n3 := jsToUint32 h3
  let h4 := h3 - n3
  n3 + h4 * 0x100000000

/-- `PseudoRandom.mash(data, n)`: the step folded over the data's character
codes. -/
def mash (data : List ℕ) (n : ℚ) : ℚ :=
  data.foldl mashStep n

/-- `PseudoRandom.mashResult(n)` (source lines 45-47):
`(n >>> 0) * 2.3283064365386963e-10`. -/
def mashResult (n : ℚ) : ℚ :=
  (jsToUint32 n : ℚ) * (2.3283064365386963e-10 : ℚ)

/-- Character codes of a string (`charCodeAt`; UTF-16 code units coincide
with code points on the basic plane). -/
def charCodes (s : String) : List ℕ :=
  s.data.map Char.toNat

/-- The generator's mutable state: `state0`, `state1`, `state2` and
`constant`. -/
structure PseudoRandomState where
  state0 : ℚ
  state1 : ℚ
  state2 : ℚ
  constant : ℚ

/-- `if (x < 0) x += 1` applied after the constructor's subtractions. -/
def wrap01 (a : ℚ) : ℚ :=
  if a < 0 then a + 1 else a

/-- The constructor's successive `n` values: `INITIAL_MASH_N`, then three
mashes of `" "`, then three mashes of the seed. -/
def seedN1 : ℚ := mash (charCodes " ") 0xefc8249d

def seedN2 : ℚ := mash (charCodes " ") seedN1

def seedN3 : ℚ := mash (charCodes " ") seedN2

def seedN4 (seed : String) : ℚ := mash (charCodes seed) seedN3

def seedN5 (seed : String) : ℚ := mash (charCodes seed) (seedN4 seed)

def seedN6 (seed : String) : ℚ := mash (charCodes seed) (seedN5 seed)

/-- `new PseudoRandom(seed)` (source lines 12-29): `state_i` is the `i`-th
space-mash result minus the `i`-th seed-mash result, wrapped into `[0, 1)`;
`constant` starts at 1. -/
def pseudoRandomInit (seed : String) : PseudoRandomState :=
  ⟨wrap01 (mashResult seedN1 - mashResult (seedN4 seed)),
   wrap01 (mashResult seedN2 - mashResult (seedN5 seed)),
   wrap01 (mashResult seedN3 - mashResult (seedN6 seed)),
   1⟩

/-- `PseudoRandom.random()` (source lines 49-54): one step, returning the
output and the successor state. -/
def pseudoRandomNext (st : PseudoRandomState) : ℚ × PseudoRandomState :=
  let t := 2091639 * st.state0 + st.constant * (2.3283064365386963e-10 : ℚ)
  let c := ((jsToInt32 t : ℤ) : ℚ)
  let out := t - c
  (out, ⟨st.state1, st.state2, out, c⟩)

/-- The first `n` outputs of the generator run from a state. -/
def pseudoRandomSeq (st : PseudoRandomState) : ℕ → List ℚ
  | 0 => []
  | n + 1 => (pseudoRandomNext st).1 :: pseudoRandomSeq (pseudoRandomNext st).2 n

/-- The reachable-state invariant of the generator: the three states lie in
`[0, 1)` and `constant` holds an integer between 0 and 2091640. -/
def GoodState (st : PseudoRandomState) : Prop :=
  0 ≤ st.state0 ∧ st.state0 < 1 ∧ 0 ≤ st.state1 ∧ st.state1 < 1 ∧
    0 ≤ st.state2 ∧ st.state2 < 1 ∧
    ∃ k : ℤ, st.constant = (k : ℚ) ∧ 0 ≤ k ∧ k ≤ 2091640

theorem dbGet_dbSet (store : Store) (path : String) (v : JsValue) :
    dbGet (dbSet store path v) path = some v := by
  simp [dbGet, dbSet, List.find?]

theorem hexChar_hexVal {c : Char} (h : isHexChar c = true) :
    hexChar (hexVal c) = charUpper c := by
  have hall : hexDigits.all (fun c => hexChar (hexVal c) == charUpper c) = true := by
    decide
  have hmem : c ∈ hexDigits := by simpa [isHexChar] using h
  exact eq_of_beq (List.all_eq_true.mp hall c hmem)

theorem hexVal_charUpper {c : Char} (h : isHexChar c = true) :
    hexVal (charUpper c) = hexVal c := by
  have hall : hexDigits.all (fun c => hexVal (charUpper c) == hexVal c) = true := by
    decide
  have hmem : c ∈ hexDigits := by simpa [isHexChar] using h
  exact eq_of_beq (List.all_eq_true.mp hall c hmem)

theorem isHexChar_charUpper {c : Char} (h : isHexChar c = true) :
    isHexChar (charUpper c) = true := by
  have hall : hexDigits.all (fun c => isHexChar (charUpper c)) = true := by decide
  have hmem : c ∈ hexDigits := by simpa [isHexChar] using h
  exact List.all_eq_true.mp hall c hmem

theorem charUpper_ne_hyphen {c : Char} (h : isHexChar c = true) :
    charUpper c ≠ '-' := by
  have hall : hexDigits.all (fun c => ¬(charUpper c == '-')) = true := by decide
  have hmem : c ∈ hexDigits := by simpa [isHexChar] using h
  have := List.all_eq_true.mp hall c hmem
  simpa using this

theorem map_intercalate_single (f : Char → Char) (sep : Char) (hf : f sep = sep)
    (ps : List (List Char)) :
    List.map f ([sep].intercalate ps) = [sep].intercalate (ps.map (List.map f)) := by
  induction ps with
  | nil => simp [List.intercalate]
  | cons hd tl ih =>
    cases tl with
    | nil => simp [List.intercalate]
    | cons hd' tl' =>
      simp only [List.intercalate] at ih ⊢
      simp [List.intersperse, hf] at ih ⊢
      simpa [hf] using ih

/-- C1, counterexample. The claim says an update is persisted iff its
timestamp is strictly newer than the stored one, so applying an update
stamped `t2` and then one stamped `t1 < t2` must leave the `t2` update
stored. The embedded `updateItem` performs no timestamp comparison: the
later-arriving `t1` update overwrites the `t2` one. -/
theorem changeFine_lww_counterexample :
    dbGet (changeFineExecute (changeFineParamsFor .update fineStampedT1)
        (changeFineExecute (changeFineParamsFor .update fineStampedT2)
          ⟨[], []⟩)).store
        (changeFineParamsFor .update fineStampedT1).finePath =
      some fineStampedT1.objectWithoutId ∧
    fineStampedT1.objectWithoutId ≠ fineStampedT2.objectWithoutId := by
  refine ⟨rfl, ?_⟩
  simp [fineStampedT1, fineStampedT2, Fine.objectWithoutId]

/-- C1, amended. `ChangeFineFunction.updateItem` consults no update metadata:
every update invocation overwrites the stored value at the fine's key path
with the submitted `objectWithoutId`, so the final stored state is the most
recently applied update regardless of the timestamps either carries. -/
theorem changeFine_update_always_overwrites (p : ChangeFineParameters)
    (w : World) (h : p.changeType = ChangeType.update) :
    dbGet (changeFineExecute p w).store p.finePath =
      some p.fine.objectWithoutId := by
  simp [changeFineExecute, h, changeFineUpdateItem, dbGet_dbSet]

/-- C1, witness for the amended theorem at a concrete update. -/
theorem changeFine_update_always_overwrites_witness :
    dbGet (changeFineExecute (changeFineParamsFor .update fineStampedT2)
        ⟨[], []⟩).store
        (changeFineParamsFor .update fineStampedT2).finePath =
      some fineStampedT2.objectWithoutId :=
  changeFine_update_always_overwrites
    (changeFineParamsFor .update fineStampedT2) ⟨[], []⟩ rfl

/-- C2. Executing a delete against a stored fine removes the record from the
store outright: a subsequent read at the fine's key path finds nothing, not
the `{ deleted: true, updateProperties: ... }` tombstone the spec and the
repository's own test (`changeFinePayed.test.ts`, 'Change state of deleted
fine') require to remain. -/
theorem changeFine_delete_removes_record :
    dbGet (changeFineExecute (changeFineParamsFor .delete fineStampedT2)
        ⟨[((changeFineParamsFor .delete fineStampedT2).finePath,
           fineStampedT2.objectWithoutId)], []⟩).store
        (changeFineParamsFor .delete fineStampedT2).finePath = none := by
  rfl

/-- C3, counterexample. A delete whose target does not exist persists no
change at all, yet the embedded `executeFunction` still appends one
statistics event — refuting "an event is recorded only if the mutation is
accepted and persisted / never for a no-op". -/
theorem changeFine_statistic_on_noop_counterexample :
    (changeFineExecute (changeFineParamsFor .delete fineStampedT2)
        ⟨[], []⟩).store = [] ∧
    (changeFineExecute (changeFineParamsFor .delete fineStampedT2)
        ⟨[], []⟩).statistics.length = 1 := by
  exact ⟨rfl, rfl⟩

/-- C3, amended. Every invocation that reaches `executeFunction` appends
exactly one statistics event — even a delete that found nothing to remove
and persisted no change. The event's `previousFine` equals the value read
from the store immediately before the change (null when absent) and its
`changedFine` is the submitted fine's serialized object for updates, or an
object holding only the fine's id for deletes. -/
theorem changeFine_statistic_exactly_once (p : ChangeFineParameters)
    (w : World) :
    (changeFineExecute p w).statistics =
      w.statistics ++
        [{ clubPath := p.clubPath
           name := "changeFine"
           properties := .obj
             [("previousFine", undefinedAsNull (dbGet w.store p.finePath)),
              ("changedFine",
                match p.changeType with
                | .update => p.fine.object
                | .delete => .obj [("id", .str p.fine.id)])] }] := by
  cases hp : p.changeType <;> simp [changeFineExecute, hp]

theorem guidParseChars_format {cs : List Char} {gs : List (List ℕ)}
    (h : guidParseChars cs = some gs) :
    ['-'].intercalate (gs.map (List.map hexChar)) = cs.map charUpper := by
  unfold guidParseChars at h
  split at h
  case isTrue hvalid =>
    injection h with h
    subst h
    simp only [guidFormatValid, Bool.and_eq_true, beq_iff_eq,
      List.all_eq_true] at hvalid
    obtain ⟨hlen, hhex⟩ := hvalid
    rw [List.map_map]
    have hmaps : ∀ p ∈ cs.splitOn '-',
        (List.map hexChar ∘ List.map hexVal) p = List.map charUpper p := by
      intro p hp
      simp only [Function.comp_apply, List.map_map]
      refine List.map_congr_left ?_
      intro c hc
      exact hexChar_hexVal (hhex p hp c hc)
    rw [List.map_congr_left hmaps]
    rw [← map_intercalate_single charUpper '-' (by decide)]
    rw [List.intercalate_splitOn]
  case isFalse => exact absurd h (by simp)

theorem guidParseChars_canonical {cs : List Char} {gs : List (List ℕ)}
    (h : guidParseChars cs = some gs) :
    guidParseChars (List.map charUpper cs) = some gs := by
  unfold guidParseChars at h
  split at h
  case isFalse => exact absurd h (by simp)
  case isTrue hvalid =>
    injection h with h
    simp only [guidFormatValid, Bool.and_eq_true, beq_iff_eq,
      List.all_eq_true] at hvalid
    obtain ⟨hlen, hhex⟩ := hvalid
    have hps_ne : cs.splitOn '-' ≠ [] := by
      intro hnil
      rw [hnil] at hlen
      simp [guidGroupLengths] at hlen
    have hnotin : ∀ l ∈ (cs.splitOn '-').map (List.map charUpper), '-' ∉ l := by
      intro l hl
      obtain ⟨p, hp, rfl⟩ := List.mem_map.mp hl
      intro hmem
      obtain ⟨c, hc, hcu⟩ := List.mem_map.mp hmem
      exact charUpper_ne_hyphen (hhex p hp c hc) hcu
    have hform : List.map charUpper cs =
        ['-'].intercalate ((cs.splitOn '-').map (List.map charUpper)) := by
      rw [← map_intercalate_single charUpper '-' (by decide),
        List.intercalate_splitOn]
    have hsplit : (List.map charUpper cs).splitOn '-' =
        (cs.splitOn '-').map (List.map charUpper) := by
      rw [hform]
      exact List.splitOn_intercalate _ '-' hnotin (by simpa using hps_ne)
    have hvalid' : guidFormatValid (List.map charUpper cs) = true := by
      simp only [guidFormatValid, Bool.and_eq_true, beq_iff_eq,
        List.all_eq_true, hsplit]
      constructor
      · rw [List.map_map]
        have : ∀ p ∈ cs.splitOn '-',
            (List.length ∘ List.map charUpper) p = List.length p := by
          intro p _
          simp
        rw [List.map_congr_left this]
        exact hlen
      · intro p hp c hc
        obtain ⟨q, hq, rfl⟩ := List.mem_map.mp hp
        obtain ⟨a, ha, rfl⟩ := List.mem_map.mp hc
        exact isHexChar_charUpper (hhex q hq a ha)
    unfold guidParseChars
    rw [if_pos hvalid', hsplit]
    rw [List.map_map]
    have : ∀ p ∈ cs.splitOn '-',
        (List.map hexVal ∘ List.map charUpper) p = List.map hexVal p := by
      intro p hp
      simp only [Function.comp_apply, List.map_map]
      refine List.map_congr_left ?_
      intro c hc
      exact hexVal_charUpper (hhex p hp c hc)
    rw [List.map_congr_left this, h]

/-- C5. Identifier round trip and format rejection: a string matching the
grouped-hex pattern parses to an identifier whose canonical formatting is
the uppercase form of the input (so a canonical input is returned
verbatim); a string failing the pattern is rejected with `InvalidFormat`;
and parsing is case-insensitive in the identifier's underlying value — the
canonicalized string parses to the very same identifier. -/
theorem guid_parse_format_roundtrip (s : String) :
    (∀ g : guid, guid.fromString s = .ok g → g.guidString = canonicalize s) ∧
    (∀ g : guid, canonicalize s = s → guid.fromString s = .ok g →
      g.guidString = s) ∧
    (guidFormatValid s.data = false →
      guid.fromString s = .error .invalidFormat) ∧
    (∀ g : guid, guid.fromString s = .ok g →
      guid.fromString (canonicalize s) = .ok g) := by
  refine ⟨?_, ?_, ?_, ?_⟩
  · intro g hg
    unfold guid.fromString at hg
    cases hparse : guidParseChars s.data with
    | none => rw [hparse] at hg; exact absurd hg (by simp)
    | some gs =>
      rw [hparse] at hg
      injection hg with hg
      subst hg
      have := guidParseChars_format hparse
      simp only [guid.guidString, canonicalize]
      exact congrArg String.mk this
  · intro g hcanon hg
    unfold guid.fromString at hg
    cases hparse : guidParseChars s.data with
    | none => rw [hparse] at hg; exact absurd hg (by simp)
    | some gs =>
      rw [hparse] at hg
      injection hg with hg
      subst hg
      have := guidParseChars_format hparse
      simp only [guid.guidString]
      rw [congrArg String.mk this]
      exact hcanon
  · intro hbad
    unfold guid.fromString guidParseChars
    rw [if_neg (by simp [hbad])]
  · intro g hg
    unfold guid.fromString at hg
    cases hparse : guidParseChars s.data with
    | none => rw [hparse] at hg; exact absurd hg (by simp)
    | some gs =>
      rw [hparse] at hg
      injection hg with hg
      subst hg
      have := guidParseChars_canonical hparse
      unfold guid.fromString
      have hdata : (canonicalize s).data = List.map charUpper s.data := rfl
      rw [hdata, this]

/-- C5, witness: the test club id parses and formats back to its canonical
uppercase form. -/
theorem guid_parse_format_roundtrip_witness :
    guid.guidString guidFixture =
      canonicalize "1992af26-8b42-4452-a564-7e376b6401db" :=
  (guid_parse_format_roundtrip "1992af26-8b42-4452-a564-7e376b6401db").1
    guidFixture rfl

/-- C4. A `changeFinePayed` update whose target fine is tombstoned fails
with code `unavailable` and the exact message "Couldn't get fine from
'Deleted'.", and the returned world is the input world: the tombstone
remains in place and no statistics event is produced. -/
theorem changeFinePayed_deleted_target (p : ChangeFinePayedCall) (w : World)
    (v : JsValue) (hv : dbGet w.store p.finePath = some v)
    (hdel : isDeletedValue v = true) :
    changeFinePayedExecute p w =
      (.error ⟨"unavailable", "Couldn't get fine from 'Deleted'."⟩, w) := by
  simp [changeFinePayedExecute, hv, hdel]

/-- C4, witness: the concrete tombstoned test fine. -/
theorem changeFinePayed_deleted_target_witness :
    changeFinePayedExecute changeFinePayedCallFixture tombstoneWorld =
      (.error ⟨"unavailable", "Couldn't get fine from 'Deleted'."⟩,
        tombstoneWorld) :=
  changeFinePayed_deleted_target changeFinePayedCallFixture tombstoneWorld
    tombstoneFixture rfl rfl

/-- C6. A request payload whose required string field `clubId` is absent,
undefined or null fails parameter parsing with `invalid-argument` and the
exact message "Couldn't parse 'clubId'. Expected type 'string', but got
undefined or null.", and the full invocation returns that error with the
world unchanged — parsing happens before any storage access. -/
theorem clubId_missing_message (data : JsValue)
    (hmiss : objLookup data "clubId" = none ∨
      objLookup data "clubId" = some .null) :
    getParameter data "clubId" "string" =
      .error ⟨"invalid-argument",
        "Couldn't parse 'clubId'. Expected type 'string', but got undefined or null."⟩ ∧
    ∀ pk : String, objLookup data "privateKey" = some (.str pk) →
      ∀ w : World, changeFinePayedRun data w =
        (.error ⟨"invalid-argument",
          "Couldn't parse 'clubId'. Expected type 'string', but got undefined or null."⟩,
          w) := by
  have h1 : getParameter data "clubId" "string" =
      .error ⟨"invalid-argument",
        "Couldn't parse 'clubId'. Expected type 'string', but got undefined or null."⟩ := by
    rcases hmiss with h | h <;> simp [getParameter, h]
  refine ⟨h1, ?_⟩
  intro pk hpk w
  have h2 : getStringParameter data "privateKey" = .ok pk := by
    simp [getStringParameter, getParameter, hpk, typeofString]
  have h3 : getStringParameter data "clubId" =
      .error ⟨"invalid-argument",
        "Couldn't parse 'clubId'. Expected type 'string', but got undefined or null."⟩ := by
    simp [getStringParameter, h1]
  simp [changeFinePayedRun, changeFinePayedParse, h2, h3, Except.bind, Bind.bind]

/-- C6, witness: the concrete payload with a private key but no `clubId`. -/
theorem clubId_missing_message_witness :
    changeFinePayedRun missingClubIdPayload ⟨[], []⟩ =
      (.error ⟨"invalid-argument",
        "Couldn't parse 'clubId'. Expected type 'string', but got undefined or null."⟩,
        ⟨[], []⟩) :=
  (clubId_missing_message missingClubIdPayload (Or.inl rfl)).2
    "some private key" rfl ⟨[], []⟩

/-- C7. A payed-state payload whose `state` field is a string outside the
accepted enum fails with `invalid-argument` and the enum template naming
exactly the three accepted values. -/
theorem payedState_enum_rejection (v : JsValue) (s : String)
    (hstate : objLookup v "state" = some (.str s))
    (hs : s ∉ payedStateValues) :
    payedStateFromObject v =
      .error ⟨"invalid-argument",
        "Couldn't parse PayedState parameter 'state'. Expected values 'payed', 'settled' or 'unpayed', but got '" ++
          s ++ "' from type 'string'."⟩ := by
  simp only [payedStateValues, List.mem_cons, List.not_mem_nil, or_false,
    not_or] at hs
  obtain ⟨h1, h2, h3⟩ := hs
  simp [payedStateFromObject, hstate, h1, h2, h3, typeofString,
    String.append_assoc,
    show "' from type '" ++ ("string" ++ "'.") = "' from type 'string'." from rfl]

/-- C7, witness: the test's `{ state: "invalid state" }` payload. -/
theorem payedState_enum_rejection_witness :
    payedStateFromObject (.obj [("state", .str "invalid state")]) =
      .error ⟨"invalid-argument",
        "Couldn't parse PayedState parameter 'state'. Expected values 'payed', 'settled' or 'unpayed', but got 'invalid state' from type 'string'."⟩ :=
  payedState_enum_rejection (.obj [("state", .str "invalid state")])
    "invalid state" rfl (by decide)

theorem isoFormat_normalized (t : ℤ) : isNormalizedIso (isoFormat t) = true := by
  have hball : ∀ k, k < 10 → isDigitChar (digitChar k) = true := by decide
  have hd : ∀ n : ℕ, isDigitChar (digitChar (n % 10)) = true :=
    fun n => hball _ (Nat.mod_lt _ (by norm_num))
  simp [isoFormat, isNormalizedIso, pad4, pad3, pad2, hd]

/-- C8. Every datetime accepted in an ISO-8601 offset form is stored in the
normalized millisecond-precision `Z` form, and the test's concrete
`payDate` input `2011-10-14T10:42:38+0000` parses, formats back as
`2011-10-14T10:42:38.000Z`, and is persisted so by the payed-state
parser. -/
theorem iso_datetime_normalization :
    (∀ s : String, ∀ t : ℤ, isoParse s = some t →
      isNormalizedIso (isoFormat t) = true) ∧
    isoParse "2011-10-14T10:42:38+0000" = some 1318588958000 ∧
    isoFormat 1318588958000 = "2011-10-14T10:42:38.000Z" ∧
    payedStateFromObject (.obj [("state", .str "payed"),
        ("payDate", .str "2011-10-14T10:42:38+0000"), ("inApp", .bool false)]) =
      .ok (.obj [("state", .str "payed"),
        ("payDate", .str "2011-10-14T10:42:38.000Z"), ("inApp", .bool false)]) :=
  ⟨fun _ t _ => isoFormat_normalized t, rfl, rfl, rfl⟩

/-- C8, witness: the universally quantified normalization conjunct applied
at the concrete accepted input. -/
theorem iso_datetime_normalization_witness :
    isNormalizedIso (isoFormat 1318588958000) = true :=
  iso_datetime_normalization.1 "2011-10-14T10:42:38+0000" 1318588958000 rfl

/-- C10. A `newClub` call whose club id already holds a stored club record
returns success and leaves the world unchanged: the stored record — every
field of it — keeps its original value. -/
theorem newClub_same_id_preserves (p : NewClubCall) (w : World) (v : JsValue)
    (h : dbGet w.store (newClubPath p) = some v) :
    newClubExecute p w = (.ok (), w) ∧
    dbGet (newClubExecute p w).2.store (newClubPath p) = some v := by
  simp [newClubExecute, h]

/-- C10, witness: the 'Same id' test fixture — a second call with different
club properties leaves the stored record intact. -/
theorem newClub_same_id_preserves_witness :
    newClubExecute newClubCallFixture newClubWorldFixture =
      (.ok (), newClubWorldFixture) ∧
    dbGet (newClubExecute newClubCallFixture newClubWorldFixture).2.store
        (newClubPath newClubCallFixture) = some clubObjectFixture :=
  newClub_same_id_preserves newClubCallFixture newClubWorldFixture
    clubObjectFixture rfl

theorem jsToUint32_lt (q : ℚ) : jsToUint32 q < 4294967296 := by
  unfold jsToUint32
  have h1 := Int.emod_lt_of_pos (jsTrunc q) (show (0 : ℤ) < 4294967296 by norm_num)
  have h2 := Int.emod_nonneg (jsTrunc q) (show (4294967296 : ℤ) ≠ 0 by norm_num)
  omega

theorem mashResult_range (n : ℚ) : 0 ≤ mashResult n ∧ mashResult n < 1 := by
  unfold mashResult
  constructor
  · positivity
  · have h := jsToUint32_lt n
    have hq : (jsToUint32 n : ℚ) ≤ 4294967295 := by
      exact_mod_cast Nat.le_of_lt_succ h
    calc (jsToUint32 n : ℚ) * (2.3283064365386963e-10 : ℚ) ≤
          4294967295 * (2.3283064365386963e-10 : ℚ) := by
            apply mul_le_mul_of_nonneg_right hq
            norm_num
      _ < 1 := by norm_num

theorem wrap_sub_mem {a b : ℚ} (ha : 0 ≤ a) (ha1 : a < 1) (hb : 0 ≤ b)
    (hb1 : b < 1) : 0 ≤ wrap01 (a - b) ∧ wrap01 (a - b) < 1 := by
  unfold wrap01
  by_cases h : a - b < 0 <;> simp only [h, if_true, if_false] <;>
    constructor <;> linarith

theorem pseudoRandomInit_good (seed : String) :
    GoodState (pseudoRandomInit seed) := by
  obtain ⟨a10, a11⟩ := mashResult_range seedN1
  obtain ⟨a20, a21⟩ := mashResult_range seedN2
  obtain ⟨a30, a31⟩ := mashResult_range seedN3
  obtain ⟨b10, b11⟩ := mashResult_range (seedN4 seed)
  obtain ⟨b20, b21⟩ := mashResult_range (seedN5 seed)
  obtain ⟨b30, b31⟩ := mashResult_range (seedN6 seed)
  obtain ⟨w10, w11⟩ := wrap_sub_mem a10 a11 b10 b11
  obtain ⟨w20, w21⟩ := wrap_sub_mem a20 a21 b20 b21
  obtain ⟨w30, w31⟩ := wrap_sub_mem a30 a31 b30 b31
  exact ⟨w10, w11, w20, w21, w30, w31, 1, rfl, by norm_num, by norm_num⟩

theorem pseudoRandomNext_good {st : PseudoRandomState} (h : GoodState st) :
    (0 ≤ (pseudoRandomNext st).1 ∧ (pseudoRandomNext st).1 < 1) ∧
      GoodState (pseudoRandomNext st).2 := by
  obtain ⟨h00, h01, h10, h11, h20, h21, k, hc, hk0, hk1⟩ := h
  have hkq0 : (0 : ℚ) ≤ (k : ℚ) := by exact_mod_cast hk0
  have hkq1 : (k : ℚ) ≤ 2091640 := by exact_mod_cast hk1
  set t := 2091639 * st.state0 + st.constant * (2.3283064365386963e-10 : ℚ)
    with ht
  have ht0 : 0 ≤ t := by
    rw [ht, hc]
    have hlit : (0 : ℚ) ≤ (2.3283064365386963e-10 : ℚ) := by norm_num
    nlinarith
  have ht1 : t < 2091640 := by
    rw [ht, hc]
    have e1 : 2091639 * st.state0 < 2091639 := by nlinarith
    have e2 : (k : ℚ) * (2.3283064365386963e-10 : ℚ) ≤
        2091640 * (2.3283064365386963e-10 : ℚ) := by nlinarith
    nlinarith
  have htr : jsTrunc t = ⌊t⌋ := by unfold jsTrunc; rw [if_pos ht0]
  have hfl0 : 0 ≤ ⌊t⌋ := Int.floor_nonneg.mpr ht0
  have hfl1 : ⌊t⌋ ≤ 2091639 := by
    have hlt : ⌊t⌋ < 2091640 := Int.floor_lt.mpr (by exact_mod_cast ht1)
    omega
  have hint : jsToInt32 t = ⌊t⌋ := by
    unfold jsToInt32
    rw [htr]
    have hm : ⌊t⌋ % 4294967296 = ⌊t⌋ := Int.emod_eq_of_lt hfl0 (by omega)
    simp only [hm]
    rw [if_pos (by omega)]
  have hout0 : 0 ≤ t - (⌊t⌋ : ℚ) := by
    have := Int.floor_le t
    linarith
  have hout1 : t - (⌊t⌋ : ℚ) < 1 := by
    have := Int.lt_floor_add_one t
    linarith
  have hfst : (pseudoRandomNext st).1 = t - ((jsToInt32 t : ℤ) : ℚ) := rfl
  have hsnd : (pseudoRandomNext st).2 =
      ⟨st.state1, st.state2, t - ((jsToInt32 t : ℤ) : ℚ),
        ((jsToInt32 t : ℤ) : ℚ)⟩ := rfl
  rw [hfst, hsnd, hint]
  exact ⟨⟨hout0, hout1⟩,
    h10, h11, h20, h21, hout0, hout1, ⌊t⌋, rfl, hfl0, by omega⟩

theorem pseudoRandomSeq_range {st : PseudoRandomState} (h : GoodState st) :
    ∀ n : ℕ, ∀ x ∈ pseudoRandomSeq st n, 0 ≤ x ∧ x < 1 := by
  intro n
  induction n generalizing st with
  | zero => simp [pseudoRandomSeq]
  | succ n ih =>
    intro x hx
    obtain ⟨hout, hnext⟩ := pseudoRandomNext_good h
    simp only [pseudoRandomSeq, List.mem_cons] at hx
    rcases hx with rfl | hx
    · exact hout
    · exact ih hnext x hx

/-- C9. The generator is a deterministic function of its seed and call
count — two instances constructed with the same seed produce identical
output sequences of any length — and every output lies in `[0, 1)`. -/
theorem pseudoRandom_deterministic_range (seed : String) (n : ℕ)
    (g1 g2 : PseudoRandomState) (h1 : g1 = pseudoRandomInit seed)
    (h2 : g2 = pseudoRandomInit seed) :
    pseudoRandomSeq g1 n = pseudoRandomSeq g2 n ∧
      ∀ x ∈ pseudoRandomSeq g1 n, 0 ≤ x ∧ x < 1 := by
  subst h1
  subst h2
  exact ⟨rfl, pseudoRandomSeq_range (pseudoRandomInit_good seed) n⟩

/-- C9, witness: two generators seeded `"seed-X"` agree on their first three
outputs, all inside `[0, 1)`. -/
theorem pseudoRandom_deterministic_range_witness :
    pseudoRandomSeq (pseudoRandomInit "seed-X") 3 =
      pseudoRandomSeq (pseudoRandomInit "seed-X") 3 ∧
    ∀ x ∈ pseudoRandomSeq (pseudoRandomInit "seed-X") 3, 0 ≤ x ∧ x < 1 :=
  pseudoRandom_deterministic_range "seed-X" 3 _ _ rfl rfl
